import Mathlib

/-!
Verification of the RepoPrep command-line utility (src/src/index.ts).

The program is a sequential pipeline: CLI/config loading, a shell-out to a
repository-packaging tool, regex extraction over the packaged XML-shaped
artifact, one prompt/answer call to a hosted model with mock fallbacks, and
an interactive interview loop.  Every definition below is a shallow
embedding of the corresponding TypeScript in src/src/index.ts; external
effects (the model API, the packaging subprocess, the filesystem, user
input) are passed in explicitly as values or oracle functions, mirroring
exactly where the code branches on them.

JavaScript string quirks that matter here are modelled faithfully for the
ASCII inputs this program handles: the regex class backslash-s is the ASCII
whitespace set, split keeps empty fragments at separator boundaries, and
object lookup with a falsy (empty-string) value falls through to the
defaulting expression.
-/

namespace RepoPrep

/-- ASCII whitespace, the characters of the JS regex class backslash-s that
can occur in the rubric, artifact and model-response text this program
processes (space, tab, line feed, carriage return, vertical tab, form feed). -/
def isWsChar (c : Char) : Bool :=
  c = ' ' || c = '\t' || c = '\n' || c = '\r' || c = '\x0b' || c = '\x0c'

/-- Does the first character list start with the second one? -/
def startsWithL : List Char → List Char → Bool
  | _, [] => true
  | [], _ :: _ => false
  | a :: as, b :: bs => a = b && startsWithL as bs

/-- Substring containment on character lists (JS String.includes). -/
def containsL : List Char → List Char → Bool
  | [], pat => pat.isEmpty
  | hay@(_ :: t), pat => startsWithL hay pat || containsL t pat

/-- Does the first character list end with the second one? -/
def endsWithL (l pat : List Char) : Bool :=
  startsWithL l.reverse pat.reverse

/-- JS String.trim restricted to the ASCII whitespace set. -/
def trimL (l : List Char) : List Char :=
  ((l.dropWhile isWsChar).reverse.dropWhile isWsChar).reverse

/-- Split a character list on every occurrence of a separator character
(JS String.split with a single-character separator). -/
def splitCharAux (sep : Char) : List Char → List Char → List (List Char)
  | [], acc => [acc.reverse]
  | c :: rest, acc =>
    if c = sep then acc.reverse :: splitCharAux sep rest []
    else splitCharAux sep rest (c :: acc)

/-- Split on a separator character, starting with an empty accumulator. -/
def splitChar (sep : Char) (l : List Char) : List (List Char) :=
  splitCharAux sep l []

/-- JS String.includes. -/
def strContains (s pat : String) : Bool := containsL s.data pat.data

/-- JS String.startsWith. -/
def strStarts (s pat : String) : Bool := startsWithL s.data pat.data

/-- JS String.endsWith. -/
def strEnds (s pat : String) : Bool := endsWithL s.data pat.data

/-- JS String.trim (ASCII whitespace). -/
def strTrim (s : String) : String := ⟨trimL s.data⟩

/-- JS String.length, the number of UTF-16 code units; it coincides with
codepoint count on the ASCII and BMP text this program handles. -/
def strLen (s : String) : Nat := s.data.length

/-- The line list of a document, JS split on the newline character. -/
def strLines (s : String) : List String :=
  (splitChar '\n' s.data).map (fun l => ⟨l⟩)

/-- Decimal digit test, the JS regex class backslash-d. -/
def isDigitChar (c : Char) : Bool := '0' ≤ c && c ≤ '9'

/-- Continuation of the test for the anchored JS regex digits-then-dot:
after one digit, more digits may follow and then a literal dot must come. -/
def numDotAfter : List Char → Bool
  | [] => false
  | c :: rest => if isDigitChar c then numDotAfter rest else c = '.'

/-- The anchored JS regex test of one-or-more digits followed by a literal
dot, used by the rubric scanner for enumerated list lines. -/
def numDotTest : List Char → Bool
  | [] => false
  | c :: rest => isDigitChar c && numDotAfter rest

/-- Characters of the JS class star, hyphen, digit, dot that the rubric
scanner strips from the front of a captured question line. -/
def isMarkerChar (c : Char) : Bool :=
  c = '*' || c = '-' || isDigitChar c || c = '.'

/-- The replace-then-trim the rubric scanner applies to a question line:
drop the leading run of list-marker characters, then the following
whitespace run, then trim (src/src/index.ts line 154 and line 161). -/
def stripMarkerS (line : String) : String :=
  ⟨trimL ((line.data.dropWhile isMarkerChar).dropWhile isWsChar)⟩

/-- A line that starts like a bullet or enumerated list item
(src/src/index.ts lines 152 and 158). -/
def isBullet (line : String) : Bool :=
  strStarts line "-" || strStarts line "*" || numDotTest line.data

/-- A list-marker line containing a question mark, accepted inside a
Questions region (src/src/index.ts lines 152-153). -/
def isQuestionLine (line : String) : Bool :=
  isBullet line && strContains line "?"

/-- The conditions that end a Questions capture region: a blank line, a
line starting with the hash character, or a line ending in a colon
(src/src/index.ts line 148). -/
def regionBreak (line : String) : Bool :=
  line = "" || strStarts line "#" || strEnds line ":"

/-- The inner while loop of extractQuestionsFromRubric: collect question
lines after a Questions header until a region break
(src/src/index.ts lines 146-157). -/
def collectRegion : List String → List String
  | [] => []
  | l :: rest =>
    let nextLine := strTrim l
    if regionBreak nextLine then []
    else
      (if isQuestionLine nextLine then [stripMarkerS nextLine] else []) ++
        collectRegion rest

/-- The outer for loop of extractQuestionsFromRubric.  Note that the source
does not advance the outer index past a scanned region, so the lines inside
a region are visited again by the standalone-bullet branch
(src/src/index.ts lines 140-164). -/
def extractLoop : List String → List String
  | [] => []
  | l :: rest =>
    let line := strTrim l
    if line = "Questions:" || strContains line "questions:" then
      collectRegion rest ++ extractLoop rest
    else if isBullet line then
      (if strContains line "?" then [stripMarkerS line] else []) ++
        extractLoop rest
    else extractLoop rest

/-- extractQuestionsFromRubric (src/src/index.ts lines 136-167): split the
rubric into lines and run the scanning loop. -/
def extractQuestionsFromRubric (rubric : String) : List String :=
  extractLoop (strLines rubric)

/-- The three fixed default questions the caller substitutes when the
rubric yields none (src/src/index.ts lines 263-267). -/
def defaultQuestions : List String :=
  ["Explain the architecture of this application",
   "How would you refactor problematic areas?",
   "How would you improve the error handling?"]

/-- The question list answerRubricQuestionsWithGemini actually uses: the
extraction result, or the three defaults when it is empty
(src/src/index.ts lines 259-268). -/
def effectiveRubricQuestions (rubric : String) : List String :=
  let qs := extractQuestionsFromRubric rubric
  if qs.isEmpty then defaultQuestions else qs

/-- Number of bytes a character occupies in UTF-8; models what the byte
size reported by fs.statSync counts for a file with this text content. -/
def charUtf8Len (c : Char) : Nat :=
  if c.toNat ≤ 0x7f then 1
  else if c.toNat ≤ 0x7ff then 2
  else if c.toNat ≤ 0xffff then 3
  else 4

/-- UTF-8 byte size of a string, the fs.statSync size of a file holding it. -/
def byteSize (s : String) : Nat :=
  s.data.foldl (fun n c => n + charUtf8Len c) 0

/-- Opening chunk of the mock repository XML template, up to the url
attribute value (src/src/index.ts lines 173-174). -/
def mockXmlChunkUrl : String := "\n<repository url=\""

/-- Template chunk between the url and name attribute values. -/
def mockXmlChunkName : String := "\" name=\""

/-- Template chunk between the name attribute and the created_at value. -/
def mockXmlChunkDate : String := "\">\n  <metadata>\n    <created_at>"

/-- Template chunk between the created_at value and the repository name in
the description element. -/
def mockXmlChunkDesc : String := r#"</created_at>
    <repository_type>GitHub</repository_type>
    <analysis_version>1.0</analysis_version>
    <description>Repository analysis for "#

/-- Closing chunk of the mock repository XML template, from the end of the
description element to the closing repository tag
(src/src/index.ts lines 179-249). -/
def mockXmlChunkTail : String := r#"</description>
    <repository_details>
      <stars>1245</stars>
      <forks>328</forks>
      <watchers>89</watchers>
      <contributors>17</contributors>
      <last_commit>2023-11-15T14:32:18Z</last_commit>
      <license>MIT</license>
    </repository_details>
  </metadata>
  
  <technologies>
    <technology type="language" usage="primary">TypeScript</technology>
    <technology type="language" usage="secondary">JavaScript</technology>
    <technology type="framework" usage="primary">React</technology>
    <technology type="framework" usage="secondary">Express</technology>
    <technology type="runtime" usage="primary">Node.js</technology>
    <technology type="database" usage="primary">MongoDB</technology>
    <technology type="database" usage="secondary">Redis</technology>
    <technology type="styling" usage="primary">Tailwind CSS</technology>
    <technology type="build" usage="primary">Vite</technology>
    <technology type="testing" usage="primary">Jest</technology>
    <technology type="ai" usage="primary">OpenAI API</technology>
    <technology type="ai" usage="secondary">LangChain</technology>
  </technologies>
  
  <components>
    <component type="ui" complexity="high">Frontend Application</component>
    <component type="server" complexity="medium">Backend API Server</component>
    <component type="service" complexity="high">AI Analysis Service</component>
    <component type="utilities" complexity="medium">Utility Functions</component>
    <component type="data" complexity="high">Data Models</component>
    <component type="integration" complexity="high">AI Model Integration</component>
  </components>
  
  <dependencies>
    <dependency version="^18.2.0" usage="critical">react</dependency>
    <dependency version="^18.2.0" usage="critical">react-dom</dependency>
    <dependency version="^4.18.2" usage="critical">express</dependency>
    <dependency version="^5.0.4" usage="critical">typescript</dependency>
    <dependency version="^4.2.0" usage="ai">openai</dependency>
    <dependency version="^1.0.0" usage="ai">langchain</dependency>
  </dependencies>

  <structure>
    <directory path="src">
      <file path="index.ts">Main application entry point</file>
      <directory path="components">
        <file path="App.tsx">Main application component</file>
        <file path="Header.tsx">Application header component</file>
        <directory path="common">
          <file path="Button.tsx">Reusable button component</file>
        </directory>
        <directory path="ai">
          <file path="SearchInterface.tsx">AI search interface component</file>
        </directory>
      </directory>
      <directory path="services">
        <directory path="ai">
          <file path="ragPipeline.ts">RAG implementation service</file>
        </directory>
      </directory>
      <directory path="utils">
        <file path="logger.ts">Application logging utility</file>
      </directory>
      <directory path="api">
        <file path="ai.ts">AI-related endpoints</file>
      </directory>
    </directory>
  </structure>
</repository>"#

/-- generateMockRepositoryXml (src/src/index.ts lines 172-250): the
synthetic repository artifact, a template interpolating the repository url,
its name (twice) and the current ISO date.  The date is passed in
explicitly since the source reads the clock. -/
def generateMockRepositoryXml (repoUrl repoName nowIso : String) : String :=
  mockXmlChunkUrl ++ (repoUrl ++ (mockXmlChunkName ++ (repoName ++
    (mockXmlChunkDate ++ (nowIso ++ (mockXmlChunkDesc ++ (repoName ++
      mockXmlChunkTail)))))))

/-- Outcome of the repomix subprocess invocation (src/src/index.ts lines
1015-1031): either it succeeds, leaving whatever artifact file the external
tool wrote (possibly none), or it fails by non-zero exit or by hitting the
bounded 300 second timeout of execSync. -/
inductive ExecOutcome where
  | success : Option String → ExecOutcome
  | failure : String → ExecOutcome
deriving DecidableEq

/-- The literal placeholder artifact written on subprocess failure
(src/src/index.ts lines 1030 and 1037). -/
def repositoryPlaceholder : String := "<repository></repository>"

/-- Content of the output artifact file right after the subprocess step:
on failure the catch block writes the placeholder, on success it is
whatever the external tool produced (src/src/index.ts lines 1015-1038). -/
def artifactAfterSubprocess : ExecOutcome → Option String
  | .success w => w
  | .failure _ => some repositoryPlaceholder

/-- The mock-replacement step of main (src/src/index.ts lines 1040-1044):
if the artifact file is missing or under 100 bytes, it is overwritten with
the synthetic mock artifact. -/
def finalArtifact (o : ExecOutcome) (repoUrl repoName nowIso : String) :
    String :=
  match artifactAfterSubprocess o with
  | none => generateMockRepositoryXml repoUrl repoName nowIso
  | some s =>
    if byteSize s < 100 then generateMockRepositoryXml repoUrl repoName nowIso
    else s

/-- The fixed character ceiling for included code content
(src/src/index.ts line 778). -/
def MAX_CONTENT_LENGTH : Nat := 600000

/-- Does the path end in a dot followed by one of the given extensions
(the JS regex alternation of extensions anchored at the end)? -/
def extOneOf (p : String) (exts : List String) : Bool :=
  exts.any (fun e => strEnds p ("." ++ e))

/-- The JS regex for main app files: a slash, one of app, main, server,
then a dot and one of js, ts, tsx, anchored at the end
(src/src/index.ts line 792). -/
def matchAppMainServer (p : String) : Bool :=
  ["app", "main", "server"].any (fun b =>
    ["js", "ts", "tsx"].any (fun e => strEnds p ("/" ++ b ++ "." ++ e)))

/-- isHighPriorityFile in the first selection pass of parseRepomixOutput
(src/src/index.ts lines 788-795). -/
def isHighPriorityFile (p : String) : Bool :=
  strContains p "index" || strContains p "config" ||
    strContains p "package.json" || matchAppMainServer p ||
    strEnds p "README.md" || strEnds p "schema.prisma" ||
    strEnds p ".env" || strEnds p ".example"

/-- isSourceCodeFile in the second selection pass
(src/src/index.ts lines 815-821). -/
def isSourceCodeFile (p : String) : Bool :=
  extOneOf p ["js", "jsx", "ts", "tsx", "vue", "svelte", "py", "rb", "go",
    "java", "kt", "swift", "c", "cpp", "h", "hpp", "cs", "php", "rs", "dart"]
  && !strContains p "test" && !strContains p "spec"
  && !strContains p "__tests__" && !strContains p "__mocks__"
  && !strContains p "node_modules"

/-- isUsefulFile in the third selection pass
(src/src/index.ts lines 841-843). -/
def isUsefulFile (p : String) : Bool :=
  extOneOf p ["css", "scss", "sass", "less", "html", "xml", "json", "yml",
    "yaml", "md", "sql", "graphql", "gql", "prisma", "toml", "ini", "sh",
    "bash", "zsh", "bat", "conf", "env"]
  && !strContains p "node_modules"

/-- Assignment into a JS object modelled as an entry list: replace the
value of an existing key in place or append a new entry, the JS object
update semantics (insertion order of keys is preserved). -/
def upsertFile {α : Type} : List (String × α) → String → α →
    List (String × α)
  | [], p, c => [(p, c)]
  | (q, d) :: rest, p, c =>
    if q = p then (q, c) :: rest else (q, d) :: upsertFile rest p c

/-- Lookup of a JS object property in the entry-list model. -/
def lookupFile {α : Type} (m : List (String × α)) (p : String) : Option α :=
  (m.find? (fun e => e.1 = p)).map (fun e => e.2)

/-- State threaded through the selection passes: the codeFiles object and
the running totalContentLength counter (src/src/index.ts lines 768-773). -/
structure SelectState where
  codeFiles : List (String × String)
  total : Nat
deriving DecidableEq

/-- The skip test of passes two and three: a truthy existing entry, that
is, a present and non-empty stored content (src/src/index.ts lines 812
and 838). -/
def truthySkip (st : SelectState) (p : String) : Bool :=
  match lookupFile st.codeFiles p with
  | some v => v ≠ ""
  | none => false

/-- Body of one selection pass for one extracted file: optionally skip an
already-included file, then include it whole when the pass predicate holds
and the running total stays under the ceiling
(src/src/index.ts lines 781-850). -/
def passStep (pred : String → Bool) (checkSkip : Bool) (st : SelectState)
    (f : String × String) : SelectState :=
  if checkSkip && truthySkip st f.1 then st
  else if pred f.1 && decide (st.total + strLen f.2 < MAX_CONTENT_LENGTH) then
    ⟨upsertFile st.codeFiles f.1 f.2, st.total + strLen f.2⟩
  else st

/-- One full pass over the extracted file list. -/
def runPass (pred : String → Bool) (checkSkip : Bool) (st : SelectState)
    (files : List (String × String)) : SelectState :=
  files.foldl (passStep pred checkSkip) st

/-- The three selection passes of parseRepomixOutput over the files
extracted from the artifact, in source order: high-priority files without
a skip check, then source-code files, then other useful files
(src/src/index.ts lines 780-850).  The extracted file list stands for the
path and CDATA content pairs the file regex produces on the artifact. -/
def selectCodeFiles (files : List (String × String)) : SelectState :=
  runPass isUsefulFile true
    (runPass isSourceCodeFile true
      (runPass isHighPriorityFile false ⟨[], 0⟩ files) files) files

/-- Total character length of all extracted file contents, the size the
selection budget is compared against. -/
def totalContentOf (files : List (String × String)) : Nat :=
  files.foldl (fun n f => n + strLen f.2) 0

/-- JSON insignificant whitespace. -/
def jsonWsChar (c : Char) : Bool :=
  c = ' ' || c = '\t' || c = '\n' || c = '\r'

/-- Drop leading JSON whitespace. -/
def skipJsonWs (l : List Char) : List Char := l.dropWhile jsonWsChar

/-- Drop a leading JS-whitespace run, the greedy star over backslash-s. -/
def skipWsJs (l : List Char) : List Char := l.dropWhile isWsChar

/-- JSON string escape table, the subset that can occur in the model
responses this program consumes: each entry pairs the character written
after the backslash with the character it denotes. -/
def escTable : List (Char × Char) :=
  [('"', '"'), ('\\', '\\'), ('/', '/'), ('n', '\n'), ('t', '\t'),
   ('r', '\r'), ('b', '\x08'), ('f', '\x0c')]

/-- Decode one JSON string escape via the table. -/
def escChar (c : Char) : Option Char :=
  (escTable.find? (fun p => p.1 = c)).map (fun p => p.2)

/-- Parse the body of a JSON string after its opening quote, returning the
decoded content and the remainder after the closing quote. -/
def parseJstringAux : List Char → Option (List Char × List Char)
  | [] => none
  | '"' :: rest => some ([], rest)
  | '\\' :: c :: rest =>
    match escChar c with
    | none => none
    | some e =>
      match parseJstringAux rest with
      | none => none
      | some (s, r) => some (e :: s, r)
  | '\\' :: [] => none
  | c :: rest =>
    match parseJstringAux rest with
    | none => none
    | some (s, r) => some (c :: s, r)

/-- Parse the members of a JSON object of string keys and string values,
the shape the prompt requests and the only shape the code reads out of
JSON.parse (a Record from question number to answer).  Later duplicate keys
overwrite earlier ones as in a JS object literal.  The flag records whether
this is the first member position, where a closing brace means the empty
object. -/
def parseMembersAux : Nat → Bool → List Char →
    List (String × String) → Option (List (String × String) × List Char)
  | 0, _, _, _ => none
  | fuel + 1, first, l, acc =>
    match skipJsonWs l with
    | '"' :: rest =>
      match parseJstringAux rest with
      | none => none
      | some (key, r1) =>
        match skipJsonWs r1 with
        | ':' :: r3 =>
          match skipJsonWs r3 with
          | '"' :: r5 =>
            match parseJstringAux r5 with
            | none => none
            | some (val, r6) =>
              let acc2 := upsertFile acc ⟨key⟩ ⟨val⟩
              match skipJsonWs r6 with
              | ',' :: r8 => parseMembersAux fuel false r8 acc2
              | '}' :: r9 => some (acc2, r9)
              | _ => none
          | _ => none
        | _ => none
    | '}' :: r9 => if first then some (acc, r9) else none
    | _ => none

/-- Model of JSON.parse as the code uses it: the whole text, modulo
whitespace, must be one JSON object of string keys and string values
(the Record of answers keyed by question number that the prompt demands
and the code indexes into).  Any other input is a parse failure. -/
def jsonObjParse (s : String) : Option (List (String × String)) :=
  match skipJsonWs s.data with
  | '{' :: rest =>
    match parseMembersAux (rest.length + 1) true rest [] with
    | some (m, r) => if (skipJsonWs r).isEmpty then some m else none
    | none => none
  | _ => none

/-- The three-backtick fence delimiter of the first extraction regex. -/
def fenceMark : List Char := "```".data

/-- Lazy search for the closing brace of the fenced capture: the dot-star
grows until a closing brace whose following whitespace run is followed by a
closing fence (the lazy group of the regex at src/src/index.ts line 467). -/
def findLazyClose : List Char → List Char → Option (List Char)
  | [], _ => none
  | '}' :: tail, acc =>
    if startsWithL (skipWsJs tail) fenceMark then
      some ('{' :: (acc.reverse ++ ['}']))
    else findLazyClose tail ('}' :: acc)
  | c :: tail, acc => findLazyClose tail (c :: acc)

/-- After the fence and the optional json tag: skip whitespace, require an
opening brace, then capture lazily to a fenced closing brace. -/
def fencedBody (r : List Char) : Option (List Char) :=
  match skipWsJs r with
  | '{' :: rest => findLazyClose rest []
  | _ => none

/-- Attempt of the fenced-JSON regex at one start position, with the
backtracking of the optional json tag (consume it first, retry without on
failure). -/
def fencedAt (l : List Char) : Option (List Char) :=
  if startsWithL l fenceMark then
    let r1 := l.drop 3
    if startsWithL r1 "json".data then
      match fencedBody (r1.drop 4) with
      | some x => some x
      | none => fencedBody r1
    else fencedBody r1
  else none

/-- Leftmost match of the fenced-JSON regex
(src/src/index.ts line 467, first alternative). -/
def scanFenced : List Char → Option (List Char)
  | [] => none
  | l@(_ :: t) =>
    match fencedAt l with
    | some x => some x
    | none => scanFenced t

/-- Lazy brace span after an opening brace: the shortest span to a closing
brace (src/src/index.ts line 468). -/
def braceLazy (rest : List Char) : Option (List Char) :=
  let inner := rest.takeWhile (fun c => c ≠ '}')
  if inner.length = rest.length then none
  else some ('{' :: (inner ++ ['}']))

/-- Leftmost match of the bare brace-span regex. -/
def scanBrace : List Char → Option (List Char)
  | [] => none
  | '{' :: t =>
    match braceLazy t with
    | some x => some x
    | none => scanBrace t
  | _ :: t => scanBrace t

/-- The JSON-like span the salvage code looks for: the fenced regex first,
then the bare first-brace-span regex; the capture group is used when the
fence matched, the whole match otherwise (src/src/index.ts lines 467-473). -/
def findJsonSpan (s : String) : Option String :=
  match scanFenced s.data with
  | some x => some ⟨x⟩
  | none => (scanBrace s.data).map (fun l => (⟨l⟩ : String))

/-- Decimal digit character. -/
def digitChar (d : Nat) : Char := Char.ofNat (48 + d)

/-- Decimal digits of a number, fuel-driven so every use reduces. -/
def digitsAux : Nat → Nat → List Char
  | 0, _ => []
  | f + 1, n =>
    if n < 10 then [digitChar n]
    else digitsAux f (n / 10) ++ [digitChar (n % 10)]

/-- Decimal digit list of a natural number. -/
def natDigits (n : Nat) : List Char := digitsAux (n + 1) n

/-- Decimal string of a natural number, the template interpolation of a JS
number. -/
def strNat (n : Nat) : String := ⟨natDigits n⟩

/-- Does the text start with the question-number marker, the digits of n
followed by a dot or a colon?  Returns the remainder after the marker. -/
def markerAt (n : Nat) (l : List Char) : Option (List Char) :=
  let d := natDigits n
  if startsWithL l d then
    match l.drop d.length with
    | c :: rest => if c = '.' || c = ':' then some rest else none
    | [] => none
  else none

/-- The lookahead of the salvage regex: whitespace then the next question
marker. -/
def lookNext (n : Nat) (l : List Char) : Bool :=
  (markerAt n (skipWsJs l)).isSome

/-- The lazy one-or-more capture of the salvage regex: grow one character
at a time, stopping at the first position after at least one character
where the next-marker lookahead holds or the text ends. -/
def captureAux (nNext : Nat) : List Char → List Char → List Char
  | acc, [] => acc.reverse
  | acc, c :: rest =>
    if !acc.isEmpty && lookNext nNext (c :: rest) then acc.reverse
    else captureAux nNext (c :: acc) rest

/-- Attempt of the salvage regex for question n at one start position:
match the marker, skip whitespace greedily, then capture lazily up to the
next marker or the end.  When the whitespace run reaches the end of the
text the greedy star backtracks one character so the one-or-more capture
can take it; when nothing at all follows the marker this position fails. -/
def salvageAt (n : Nat) (l : List Char) : Option (List Char) :=
  match markerAt n l with
  | none => none
  | some rest =>
    let s0 := skipWsJs rest
    if s0.isEmpty then
      match rest.reverse with
      | [] => none
      | c :: _ => some [c]
    else some (captureAux (n + 1) [] s0)

/-- Leftmost match of the salvage regex for question n
(src/src/index.ts lines 485-490). -/
def salvageScan (n : Nat) : List Char → Option (List Char)
  | [] => none
  | l@(_ :: t) =>
    match salvageAt n l with
    | some cap => some cap
    | none => salvageScan n t

/-- The per-question salvage of attempt three: for each question number a
trimmed regex capture, or the fixed placeholder when the regex does not
match (src/src/index.ts lines 484-490). -/
def salvageAnswers (questionCount : Nat) (text : String) :
    List (String × String) :=
  (List.range questionCount).map (fun i =>
    let n := i + 1
    (strNat n,
     match salvageScan n text.data with
     | some cap => strTrim ⟨cap⟩
     | none => "Unable to extract answer for question " ++ strNat n))

/-- The response-parsing cascade of answerRubricQuestionsWithGemini
(src/src/index.ts lines 459-492): parse the whole text as JSON; on failure
look for a JSON-like span and parse that, leaving the answers empty when
that also fails; only when no span was found at all run the per-question
salvage regex. -/
def parseAnswers (responseText : String) (questionCount : Nat) :
    List (String × String) :=
  match jsonObjParse responseText with
  | some m => m
  | none =>
    match findJsonSpan responseText with
    | some sp =>
      match jsonObjParse sp with
      | some m => m
      | none => []
    | none => salvageAnswers questionCount responseText

/-- The per-question readout of the answers object with the JS falsy
default: a missing or empty answer becomes the no-answer placeholder
(src/src/index.ts line 498). -/
def answerFor (answers : List (String × String)) (i : Nat) : String :=
  let questionId := strNat (i + 1)
  match lookupFile answers questionId with
  | some a =>
    if a = "" then "No answer provided for question " ++ questionId else a
  | none => "No answer provided for question " ++ questionId

/-- InterviewQuestion (src/src/index.ts lines 114-123).  The source field
named type is rendered qType, a Lean keyword clash; the two optional
repository fields are plain strings because every creation site sets them. -/
structure InterviewQuestion where
  id : String
  question : String
  qType : String
  difficulty : String
  expectedAnswer : String
  evaluationCriteria : List String
  repository : String
  repositoryName : String
deriving DecidableEq

/-- AnswerEvaluation (src/src/index.ts lines 125-131); the score is the
1 to 10 integer scale. -/
structure AnswerEvaluation where
  score : Nat
  feedback : String
  missingPoints : List String
  strengths : List String
  suggestions : String
deriving DecidableEq

/-- The model the single GoogleGenerativeAI client is configured with
(src/src/index.ts lines 70-74); it is the only model instance the program
ever constructs. -/
def primaryModelName : String := "gemini-2.0-pro-exp"

/-- The evaluation criteria attached to every generated record
(src/src/index.ts lines 506-510 and 549-553). -/
def analysisCriteria : List String :=
  ["Accuracy based on repository content",
   "Technical depth and specificity",
   "Practical recommendations"]

/-- The clearly marked synthetic mock answer generated per question when
the API call fails (src/src/index.ts line 548). -/
def mockAnswerText (question : String) : String :=
  "[MOCK ANSWER] Based on the limited information available from the " ++
  ("repository analysis, I cannot provide a specific answer to \"" ++
  (question ++
  ("\". The analysis may be incomplete due to packing errors. Without " ++
  ("more details about the repository structure and implementation, I " ++
  ("can only suggest reviewing the code directly or running additional " ++
  "analysis tools to gather more information.")))))

/-- One generated record on the success path (src/src/index.ts lines
500-513) and, with the mock answer substituted, on the API-failure path
(lines 543-556). -/
def mkQuestionRecord (repo name : String) (idx : Nat)
    (question answer : String) : InterviewQuestion :=
  { id := "q" ++ strNat (idx + 1)
    question := question
    qType := "Repository Analysis"
    difficulty := "medium"
    expectedAnswer := answer
    evaluationCriteria := analysisCriteria
    repository := repo
    repositoryName := name }

/-- The single fixed mock question returned by the outermost catch of
answerRubricQuestionsWithGemini (src/src/index.ts lines 566-577). -/
def fallbackMockQuestions (repo name : String) : List InterviewQuestion :=
  [{ id := "q1"
     question := "Looking at the repository architecture, explain how " ++
       "you would improve the data flow."
     qType := "Architecture & Design"
     difficulty := "medium"
     expectedAnswer := "I would implement a more robust state management " ++
       "solution to handle API interactions, caching, and loading/error " ++
       "states. The implementation could benefit from better separation " ++
       "between UI components and data fetching logic."
     evaluationCriteria := ["Architecture understanding",
       "State management knowledge", "API design principles"]
     repository := repo
     repositoryName := name }]

/-- How one run of answerRubricQuestionsWithGemini interacts with the
world, mirroring its three disjoint control paths: the single
generateContent call returns text; that call (or the debug-file write next
to it, inside the same try) throws, caught at line 518; or something
outside the inner try throws first (the summary assembly or a console
write), caught by the outermost catch at line 562 before any model call. -/
inductive GenOutcome where
  | ok : String → GenOutcome
  | apiFail : String → GenOutcome
  | outerFail : String → GenOutcome
deriving DecidableEq

/-- answerRubricQuestionsWithGemini (src/src/index.ts lines 256-581),
returning the generated records together with the log of model names
invoked by generateContent during the run.  The repository analysis record
is reduced to the url and name fields the returned records carry. -/
def answerRubricQuestionsWithGemini (repo name : String) (rubric : String)
    (outcome : GenOutcome) : List InterviewQuestion × List String :=
  let rubricQuestions := effectiveRubricQuestions rubric
  match outcome with
  | .ok text =>
    let answers := parseAnswers text rubricQuestions.length
    (rubricQuestions.enum.map (fun p =>
       mkQuestionRecord repo name p.1 p.2 (answerFor answers p.1)),
     [primaryModelName])
  | .apiFail _ =>
    (rubricQuestions.enum.map (fun p =>
       mkQuestionRecord repo name p.1 p.2 (mockAnswerText p.2)),
     [primaryModelName])
  | .outerFail _ => (fallbackMockQuestions repo name, [])

/-- JS split on the one-or-more-whitespace regex, used for the word count
of the heuristic evaluator (src/src/index.ts line 640): tokens between
maximal whitespace runs, keeping the empty fragments JS produces at the
boundaries.  Fuel-driven; the initial fuel always suffices. -/
def splitWsRunsAux : Nat → List Char → List String
  | 0, _ => []
  | fuel + 1, l =>
    let tok := l.takeWhile (fun c => !isWsChar c)
    let rest := l.drop tok.length
    match rest with
    | [] => [⟨tok⟩]
    | _ :: _ => (⟨tok⟩ : String) :: splitWsRunsAux fuel (rest.dropWhile isWsChar)

/-- JS answer.split on the whitespace regex. -/
def splitWsRuns (s : String) : List String :=
  splitWsRunsAux (s.data.length + 1) s.data

/-- Separator class of the keyword split: dot, comma, or whitespace
(src/src/index.ts line 650). -/
def isEvalSep (c : Char) : Bool := c = '.' || c = ',' || isWsChar c

/-- JS split on the single-character class of dot, comma, whitespace: each
separator occurrence splits, leaving empty fragments between consecutive
separators. -/
def splitEvalSepAux : Nat → List Char → List String
  | 0, _ => []
  | fuel + 1, l =>
    let tok := l.takeWhile (fun c => !isEvalSep c)
    let rest := l.drop tok.length
    match rest with
    | [] => [⟨tok⟩]
    | _ :: tail => (⟨tok⟩ : String) :: splitEvalSepAux fuel tail

/-- JS expectedAnswer.split on the separator class. -/
def splitEvalSep (s : String) : List String :=
  splitEvalSepAux (s.data.length + 1) s.data

/-- ASCII lower-casing, the effect of JS toLowerCase on the text this
program handles. -/
def asciiLower (c : Char) : Char :=
  if 'A' ≤ c && c ≤ 'Z' then Char.ofNat (c.toNat + 32) else c

/-- JS toLowerCase (ASCII). -/
def strLower (s : String) : String := ⟨s.data.map asciiLower⟩

/-- The score arithmetic of the heuristic fallback evaluator
(src/src/index.ts lines 640-661).  The keyword ratio comparisons are the
exact rational forms of the source float comparisons (ratio above one half,
ratio below one fifth), and when the keyword list is empty both source
comparisons are against NaN and false, so the score is left unchanged. -/
def heuristicScore (wordCount kwTotal kwMatches : Nat) : Nat :=
  let score0 := 5
  let score1 :=
    if wordCount < 20 then max 3 (score0 - 2)
    else if wordCount > 100 then min 8 (score0 + 3)
    else score0
  if kwTotal = 0 then score1
  else if kwTotal < 2 * kwMatches then min 10 (score1 + 2)
  else if 5 * kwMatches < kwTotal then max 1 (score1 - 2)
  else score1

/-- The heuristic fallback evaluation built when the evaluation API call
fails (src/src/index.ts lines 635-681): word count and keyword-overlap
score, fixed lists, and score-dependent feedback and suggestion strings. -/
def fallbackEvaluation (q : InterviewQuestion) (answer : String) :
    AnswerEvaluation :=
  let wordCount := (splitWsRuns answer).length
  let expectedKeywords :=
    (splitEvalSep (strLower q.expectedAnswer)).filter (fun w => 5 < strLen w)
  let keywordMatches :=
    (expectedKeywords.filter (fun k => strContains (strLower answer) k)).length
  let score := heuristicScore wordCount expectedKeywords.length keywordMatches
  { score := score
    feedback :=
      if score > 7 then
        "Good answer that demonstrates strong understanding of the concepts."
      else
        "Your answer shows basic understanding but could be more comprehensive."
    missingPoints := ["More specific implementation details needed",
      "Consider edge cases and error scenarios"]
    strengths := ["Clear explanation of the approach",
      "Good understanding of the core concepts"]
    suggestions :=
      if score > 7 then
        "Try to provide more concrete examples from real-world experience."
      else
        "Review the core concepts and focus on practical implementation details." }

/-- The interview loop of runInterview (src/src/index.ts lines 1232-1309)
restricted to its evaluation bookkeeping: each question is paired with the
answer typed for it, a case-insensitive exit ends the loop keeping the
results recorded so far, a case-insensitive skip advances without
evaluating, and any other input stores the evaluation keyed by the
question id.  The evaluator is passed in as an oracle standing for
evaluateAnswerWithGemini. -/
def runLoop (evalF : InterviewQuestion → String → AnswerEvaluation)
    (acc : List (String × AnswerEvaluation)) :
    List (InterviewQuestion × String) → List (String × AnswerEvaluation)
  | [] => acc
  | (q, a) :: rest =>
    if strLower a = "exit" then acc
    else if strLower a = "skip" then runLoop evalF acc rest
    else runLoop evalF (upsertFile acc q.id (evalF q a)) rest

/-- The results record of one interview session, starting empty
(src/src/index.ts line 1188). -/
def interviewResults (evalF : InterviewQuestion → String → AnswerEvaluation)
    (pairs : List (InterviewQuestion × String)) :
    List (String × AnswerEvaluation) :=
  runLoop evalF [] pairs

/-- readReposFromFile (src/src/index.ts lines 24-46) with the file read
modelled as an optional content (none when reading throws).  Returns the
url list together with whether an error was reported to the console. -/
def readReposFromFile (content : Option String) : List String × Bool :=
  match content with
  | none => ([], true)
  | some text =>
    let repos := (((strLines text).map strTrim).filter (fun l =>
      strStarts l "https://" && !strStarts l "#")).filter (fun l => l ≠ "")
    if repos.isEmpty then ([], true) else (repos, false)

/-- The fixed default repository url (src/src/index.ts line 63). -/
def defaultRepoUrl : String :=
  "https://github.com/ProgramComputer/friendly-tickets"

/-- The REPO_URLS selection of src/src/index.ts lines 49-64: find a
repo-list argument anywhere in argv; when it names an existing file read
urls from it, otherwise filter the url-shaped arguments after the two
node/script entries; when nothing was obtained push the single default.
Returns the url list and whether an error was reported. -/
def computeRepoUrls (argv : List String) (fileExists : String → Bool)
    (fileContent : String → Option String) : List String × Bool :=
  let listFile := argv.find? (fun a =>
    strEnds a ".repos" || strEnds a ".list")
  let fromArgs : List String × Bool :=
    ((argv.drop 2).filter (fun a => strStarts a "https://"), false)
  let picked :=
    match listFile with
    | some f => if fileExists f then readReposFromFile (fileContent f)
                else fromArgs
    | none => fromArgs
  if picked.1.isEmpty then ([defaultRepoUrl], picked.2) else picked

/-- A stylesheet content of exactly the ceiling size, for exercising the
selection budget. -/
def bigCss : String := ⟨List.replicate 600000 'a'⟩

/-- A three-file artifact whose total content exceeds the ceiling: a small
high-priority file, a large stylesheet, then another small high-priority
file. -/
def c4Files : List (String × String) :=
  [("src/index.ts", "0123456789"),
   ("style.css", bigCss),
   ("app.config.js", "abcdefghij")]

section Lemmas

/-- String concatenation concatenates the character lists. -/
theorem strData_append (a b : String) : (a ++ b).data = a.data ++ b.data := by
  cases a; cases b; rfl

/-- Every list starts with the empty pattern. -/
theorem startsWithL_nil (l : List Char) : startsWithL l [] = true := by
  cases l <;> rfl

/-- A prefix of the left part is a prefix of a concatenation. -/
theorem startsWithL_append_left (p : List Char) :
    ∀ l₁ l₂ : List Char, startsWithL l₁ p = true →
      startsWithL (l₁ ++ l₂) p = true := by
  induction p with
  | nil => intro l₁ l₂ _; exact startsWithL_nil _
  | cons b bs ih =>
    intro l₁ l₂ h
    cases l₁ with
    | nil => simp [startsWithL] at h
    | cons a as =>
      simp only [startsWithL, Bool.and_eq_true] at h ⊢
      exact ⟨h.1, ih as l₂ h.2⟩

/-- Starting with a pattern lifts along string concatenation. -/
theorem strStarts_append (a b pat : String) (h : strStarts a pat = true) :
    strStarts (a ++ b) pat = true := by
  unfold strStarts at h ⊢
  rw [strData_append]
  exact startsWithL_append_left _ _ _ h

/-- Ending with a pattern lifts along list concatenation on the left. -/
theorem endsWithL_append_right (a b p : List Char)
    (h : endsWithL b p = true) : endsWithL (a ++ b) p = true := by
  unfold endsWithL at h ⊢
  rw [List.reverse_append]
  exact startsWithL_append_left _ _ _ h

/-- Ending with a pattern lifts along string concatenation. -/
theorem strEnds_append (a b pat : String) (h : strEnds b pat = true) :
    strEnds (a ++ b) pat = true := by
  unfold strEnds at h ⊢
  rw [strData_append]
  exact endsWithL_append_right _ _ _ h

/-- Every entry after a JS object assignment is an old entry or the new
key-value pair. -/
theorem mem_upsertFile {α : Type} :
    ∀ (m : List (String × α)) (p : String) (c : α) (e : String × α),
      e ∈ upsertFile m p c → e ∈ m ∨ e = (p, c) := by
  intro m
  induction m with
  | nil =>
    intro p c e h
    simp only [upsertFile, List.mem_singleton] at h
    exact Or.inr h
  | cons qd rest ih =>
    rcases qd with ⟨q, d⟩
    intro p c e h
    by_cases hq : q = p
    · simp only [upsertFile] at h
      rw [if_pos hq] at h
      rcases List.mem_cons.mp h with h1 | h1
      · exact Or.inr (by rw [h1, hq])
      · exact Or.inl (List.mem_cons_of_mem _ h1)
    · simp only [upsertFile] at h
      rw [if_neg hq] at h
      rcases List.mem_cons.mp h with h1 | h1
      · exact Or.inl (by rw [h1]; exact List.mem_cons_self _ _)
      · rcases ih p c e h1 with h2 | h2
        · exact Or.inl (List.mem_cons_of_mem _ h2)
        · exact Or.inr h2

/-- Invariant of one selection pass: the running total stays under the
ceiling and every included entry comes from the processed file lists. -/
theorem runPass_inv (pred : String → Bool) (ck : Bool)
    (allFiles : List (String × String)) :
    ∀ (files : List (String × String)) (st : SelectState),
      st.total < MAX_CONTENT_LENGTH →
      (∀ e ∈ st.codeFiles, e ∈ allFiles) →
      (∀ f ∈ files, f ∈ allFiles) →
      (runPass pred ck st files).total < MAX_CONTENT_LENGTH ∧
        ∀ e ∈ (runPass pred ck st files).codeFiles, e ∈ allFiles := by
  intro files
  induction files with
  | nil => intro st h1 h2 _; exact ⟨h1, h2⟩
  | cons f rest ih =>
    intro st h1 h2 h3
    have hf : f ∈ allFiles := h3 f (List.mem_cons_self _ _)
    have hrest : ∀ g ∈ rest, g ∈ allFiles :=
      fun g hg => h3 g (List.mem_cons_of_mem _ hg)
    have hstep :
        (passStep pred ck st f).total < MAX_CONTENT_LENGTH ∧
          ∀ e ∈ (passStep pred ck st f).codeFiles, e ∈ allFiles := by
      unfold passStep
      split
      · exact ⟨h1, h2⟩
      · split
        · rename_i hcond

          have hlt : st.total + strLen f.2 < MAX_CONTENT_LENGTH :=
            of_decide_eq_true (Bool.and_eq_true .. ▸ hcond).2
          refine ⟨hlt, ?_⟩
          intro e he
          rcases mem_upsertFile _ _ _ _ he with h4 | h4
          · exact h2 e h4
          · rw [h4]; exact hf
        · exact ⟨h1, h2⟩
    have := ih (passStep pred ck st f) hstep.1 hstep.2 hrest
    simpa [runPass, List.foldl] using this

/-- The total-content fold shifts over its accumulator. -/
theorem totalContent_shift :
    ∀ (l : List (String × String)) (n : Nat),
      List.foldl (fun acc f => acc + strLen f.2) n l =
        n + List.foldl (fun acc f => acc + strLen f.2) 0 l := by
  intro l
  induction l with
  | nil => intro n; simp [List.foldl]
  | cons a as ih =>
    intro n
    simp only [List.foldl]
    rw [ih (n + strLen a.2), ih (0 + strLen a.2)]
    omega

/-- The total content of the extracted files decomposes per file. -/
theorem totalContentOf_cons (f : String × String)
    (l : List (String × String)) :
    totalContentOf (f :: l) = strLen f.2 + totalContentOf l := by
  unfold totalContentOf
  simp only [List.foldl]
  rw [totalContent_shift l (0 + strLen f.2)]
  omega

/-- When the first case-insensitive exit sits at position k, the loop
computes the same results as on the first k questions alone. -/
theorem runLoop_take (evalF : InterviewQuestion → String → AnswerEvaluation) :
    ∀ (pairs : List (InterviewQuestion × String)) (k : Nat)
      (acc : List (String × AnswerEvaluation)),
      (∀ p ∈ pairs.take k, strLower p.2 ≠ "exit") →
      (∃ p, pairs.get? k = some p ∧ strLower p.2 = "exit") →
      runLoop evalF acc pairs = runLoop evalF acc (pairs.take k) := by
  intro pairs
  induction pairs with
  | nil =>
    intro k acc _ h2
    rcases h2 with ⟨p, hp, _⟩
    simp at hp
  | cons qa rest ih =>
    intro k acc h1 h2
    cases k with
    | zero =>
      rcases h2 with ⟨p, hp, hex⟩
      simp only [List.get?] at hp
      cases hp
      simp only [List.take, runLoop, hex, if_pos rfl]
      rfl
    | succ k =>
      have hhead : strLower qa.2 ≠ "exit" :=
        h1 qa (by simp [List.take])
      have h1r : ∀ p ∈ rest.take k, strLower p.2 ≠ "exit" :=
        fun p hp => h1 p (by simp [List.take, hp])
      have h2r : ∃ p, rest.get? k = some p ∧ strLower p.2 = "exit" := h2
      rcases qa with ⟨q, a⟩
      simp only [List.take, runLoop]
      rw [if_neg hhead, if_neg hhead]
      split
      · exact ih k acc h1r h2r
      · exact ih k (upsertFile acc q.id (evalF q a)) h1r h2r

/-- Every recorded result entry is inherited from the starting record or
produced by an evaluated (neither skipped nor exit) question. -/
theorem runLoop_mem (evalF : InterviewQuestion → String → AnswerEvaluation) :
    ∀ (pairs : List (InterviewQuestion × String))
      (acc : List (String × AnswerEvaluation))
      (kv : String × AnswerEvaluation),
      kv ∈ runLoop evalF acc pairs →
      kv ∈ acc ∨ ∃ p, p ∈ pairs ∧ p.1.id = kv.1 ∧
        strLower p.2 ≠ "skip" ∧ strLower p.2 ≠ "exit" := by
  intro pairs
  induction pairs with
  | nil => intro acc kv h; exact Or.inl h
  | cons qa rest ih =>
    rcases qa with ⟨q, a⟩
    intro acc kv h
    simp only [runLoop] at h
    by_cases hex : strLower a = "exit"
    · rw [if_pos hex] at h
      exact Or.inl h
    · rw [if_neg hex] at h
      by_cases hsk : strLower a = "skip"
      · rw [if_pos hsk] at h
        rcases ih acc kv h with h1 | ⟨p, hp, hrest⟩
        · exact Or.inl h1
        · exact Or.inr ⟨p, List.mem_cons_of_mem _ hp, hrest⟩
      · rw [if_neg hsk] at h
        rcases ih (upsertFile acc q.id (evalF q a)) kv h with h1 | ⟨p, hp, hrest⟩
        · rcases mem_upsertFile _ _ _ _ h1 with h2 | h2
          · exact Or.inl h2
          · refine Or.inr ⟨(q, a), List.mem_cons_self _ _, ?_, hsk, hex⟩
            rw [h2]
        · exact Or.inr ⟨p, List.mem_cons_of_mem _ hp, hrest⟩

/-- The heuristic score arithmetic always lands in the 1 to 10 range. -/
theorem heuristicScore_bounds (wc t m : Nat) :
    1 ≤ heuristicScore wc t m ∧ heuristicScore wc t m ≤ 10 := by
  simp only [heuristicScore]
  split_ifs <;> decide

/-- Projecting the question field back out of the generated records gives
exactly the question list that went in. -/
theorem map_question_enum (repo name : String) (g : Nat × String → String)
    (l : List String) :
    ((l.enum.map (fun p => mkQuestionRecord repo name p.1 p.2 (g p))).map
      (fun q => q.question)) = l := by
  rw [List.map_map]
  have h : ((fun q : InterviewQuestion => q.question) ∘
      (fun p : Nat × String => mkQuestionRecord repo name p.1 p.2 (g p))) =
      Prod.snd := rfl
  rw [h, List.enum_map_snd]

end Lemmas

/-- Claim C1.  The claim states that the rubric scanner counts each
bullet or numbered question line exactly once, so that the rubric with a
Questions header and two bullet questions yields exactly the two-element
list of those questions.  The code disagrees: the outer loop index is not
advanced past a scanned Questions region, so every question line inside a
region is pushed twice, and the example rubric yields the four-element
duplicated list.  This theorem evaluates the embedded scanner at the
failing input of the claim. -/
theorem c1_rubric_double_count :
    extractQuestionsFromRubric "Questions:\n- What is X?\n- How does Y work?" =
      ["What is X?", "How does Y work?", "What is X?", "How does Y work?"] ∧
    extractQuestionsFromRubric "Questions:\n- What is X?\n- How does Y work?" ≠
      ["What is X?", "How does Y work?"] := by
  decide

set_option maxRecDepth 100000 in
/-- Claim C5.  When the packaging subprocess fails (non-zero exit or
timeout), the catch block writes the literal placeholder artifact, the
placeholder is under 100 bytes, so the size check replaces it with the
synthetic mock artifact, which is a well-formed repository element:
it opens with the repository tag and closes with the matching end tag. -/
theorem c5_packager_fallback (msg repoUrl repoName nowIso : String) :
    artifactAfterSubprocess (.failure msg) = some repositoryPlaceholder ∧
    byteSize repositoryPlaceholder < 100 ∧
    finalArtifact (.failure msg) repoUrl repoName nowIso =
      generateMockRepositoryXml repoUrl repoName nowIso ∧
    strStarts (finalArtifact (.failure msg) repoUrl repoName nowIso)
      "\n<repository url=\"" = true ∧
    strEnds (finalArtifact (.failure msg) repoUrl repoName nowIso)
      "</repository>" = true := by
  have hfinal : finalArtifact (.failure msg) repoUrl repoName nowIso =
      generateMockRepositoryXml repoUrl repoName nowIso := by
    simp only [finalArtifact, artifactAfterSubprocess]
    rw [if_pos (by decide : byteSize repositoryPlaceholder < 100)]
  refine ⟨rfl, by decide, hfinal, ?_, ?_⟩
  · rw [hfinal]
    simp only [generateMockRepositoryXml]
    exact strStarts_append _ _ _ (by decide)
  · rw [hfinal]
    simp only [generateMockRepositoryXml]
    exact strEnds_append _ _ _ (strEnds_append _ _ _ (strEnds_append _ _ _
      (strEnds_append _ _ _ (strEnds_append _ _ _ (strEnds_append _ _ _
        (strEnds_append _ _ _ (strEnds_append _ _ _ (by decide))))))))

/-- Claim C2 counterexample.  The claim states that on an error message
indicating rate limiting (containing 429) the client retries exactly once
against a secondary model before falling back to mock answers.  The code
has no secondary model: the single configured model is called once, the
call log contains no other model name at all, and the mock answers are
produced directly, refuting the claimed retry at this concrete input. -/
theorem c2_counterexample :
    strContains "429 Too Many Requests: Resource has been exhausted" "429" =
      true ∧
    (answerRubricQuestionsWithGemini "https://github.com/u/r" "r" ""
      (.apiFail "429 Too Many Requests: Resource has been exhausted")).2 =
      [primaryModelName] ∧
    ((answerRubricQuestionsWithGemini "https://github.com/u/r" "r" ""
      (.apiFail "429 Too Many Requests: Resource has been exhausted")).2.filter
      (fun m => !(m == primaryModelName))) = [] ∧
    ((answerRubricQuestionsWithGemini "https://github.com/u/r" "r" ""
      (.apiFail "429 Too Many Requests: Resource has been exhausted")).1.all
      (fun q => strStarts q.expectedAnswer "[MOCK ANSWER]")) = true := by
  decide

/-- Claim C2 amended.  On any error from the single model call, whatever
its message, no retry happens and no secondary model exists: the call log
of the run is exactly the one primary model invocation, and the result
falls back directly to the clearly marked mock answers. -/
theorem c2_no_secondary_retry (repo name rubric msg : String) :
    (answerRubricQuestionsWithGemini repo name rubric (.apiFail msg)).2 =
      [primaryModelName] ∧
    ((answerRubricQuestionsWithGemini repo name rubric (.apiFail msg)).2.filter
      (fun m => !(m == primaryModelName))) = [] ∧
    ((answerRubricQuestionsWithGemini repo name rubric (.apiFail msg)).1.all
      (fun q => strStarts q.expectedAnswer "[MOCK ANSWER]")) = true := by
  refine ⟨rfl, rfl, ?_⟩
  simp only [answerRubricQuestionsWithGemini]
  rw [List.all_eq_true]
  intro q hq
  rcases List.mem_map.mp hq with ⟨p, _, rfl⟩
  exact strStarts_append _ _ _ (by decide)

/-- Claim C3 counterexample.  The claim states that the answer generator
returns exactly one record per question on every execution path.  On the
outermost-failure path (an exception outside the inner API try, for
example a console write failing during summary assembly) the code returns
the single fixed mock question no matter how many questions there are:
with an empty rubric there are three effective questions but one record. -/
theorem c3_counterexample :
    (answerRubricQuestionsWithGemini "u" "n" "" (.outerFail "boom")).1.length
      = 1 ∧
    (effectiveRubricQuestions "").length = 3 := by
  decide

/-- Claim C3 amended.  On the success path and on the API-failure path the
generator returns records aligned one to one with the effective question
list, the API-failure records carrying the clearly marked mock answer; on
the outermost-failure path it returns the single fixed mock question
regardless of the question count. -/
theorem c3_alignment (repo name rubric text msgA msgO : String) :
    ((answerRubricQuestionsWithGemini repo name rubric (.ok text)).1.map
      (fun q => q.question)) = effectiveRubricQuestions rubric ∧
    ((answerRubricQuestionsWithGemini repo name rubric (.ok text)).1.length =
      (effectiveRubricQuestions rubric).length) ∧
    ((answerRubricQuestionsWithGemini repo name rubric (.apiFail msgA)).1.map
      (fun q => q.question)) = effectiveRubricQuestions rubric ∧
    ((answerRubricQuestionsWithGemini repo name rubric (.apiFail msgA)).1.all
      (fun q => strStarts q.expectedAnswer "[MOCK ANSWER]")) = true ∧
    ((answerRubricQuestionsWithGemini repo name rubric
      (.outerFail msgO)).1.length = 1) := by
  refine ⟨?_, ?_, ?_, ?_, rfl⟩
  · simp only [answerRubricQuestionsWithGemini]
    exact map_question_enum _ _ _ _
  · simp only [answerRubricQuestionsWithGemini]
    rw [List.length_map, List.enum_length]
  · simp only [answerRubricQuestionsWithGemini]
    exact map_question_enum _ _ _ _
  · simp only [answerRubricQuestionsWithGemini]
    rw [List.all_eq_true]
    intro q hq
    rcases List.mem_map.mp hq with ⟨p, _, rfl⟩
    exact strStarts_append _ _ _ (by decide)

/-- A selection step leaves the state unchanged when the skip test fails
and the pass predicate rejects the path, regardless of the content size. -/
theorem passStep_no_match (pred : String → Bool) (ck : Bool)
    (st : SelectState) (f : String × String)
    (h1 : (ck && truthySkip st f.1) = false) (h2 : pred f.1 = false) :
    passStep pred ck st f = st := by
  unfold passStep
  rw [h1, h2]
  simp

/-- A selection step leaves the state unchanged when the skip test fails
and the content would push the running total to the ceiling or beyond. -/
theorem passStep_over (pred : String → Bool) (ck : Bool)
    (st : SelectState) (f : String × String)
    (h1 : (ck && truthySkip st f.1) = false)
    (h2 : ¬ (st.total + strLen f.2 < MAX_CONTENT_LENGTH)) :
    passStep pred ck st f = st := by
  unfold passStep
  rw [h1, decide_eq_false h2]
  simp

/-- Claim C4 counterexample.  The claim states that an artifact whose
prompt exceeds the token ceiling is truncated at the nearest preceding
complete file boundary with a truncation marker appended.  The code does
neither token counting nor truncation: it selects whole files in three
priority passes under a fixed 600000-character budget.  On this concrete
over-budget artifact the kept files are the first and the third, skipping
the over-sized middle one, so the kept content is not a truncation of the
artifact at a preceding file boundary (not even a contiguous prefix of its
file sequence). -/
theorem c4_counterexample :
    MAX_CONTENT_LENGTH < totalContentOf c4Files ∧
    ((selectCodeFiles c4Files).codeFiles.map Prod.fst) =
      ["src/index.ts", "app.config.js"] ∧
    (((selectCodeFiles c4Files).codeFiles.map Prod.fst).isPrefixOf
      (c4Files.map Prod.fst)) = false := by
  have hlen : strLen bigCss = 600000 := by
    show (List.replicate 600000 'a').length = 600000
    exact List.length_replicate _ _
  have hp2 : strLen (("style.css", bigCss) : String × String).2 = 600000 :=
    hlen
  have p1a : passStep isHighPriorityFile false ⟨[], 0⟩
      ("src/index.ts", "0123456789") =
      ⟨[("src/index.ts", "0123456789")], 10⟩ := by decide
  have p1b : passStep isHighPriorityFile false
      ⟨[("src/index.ts", "0123456789")], 10⟩ ("style.css", bigCss) =
      ⟨[("src/index.ts", "0123456789")], 10⟩ :=
    passStep_no_match _ _ _ _ rfl (by decide)
  have p1c : passStep isHighPriorityFile false
      ⟨[("src/index.ts", "0123456789")], 10⟩ ("app.config.js", "abcdefghij") =
      ⟨[("src/index.ts", "0123456789"), ("app.config.js", "abcdefghij")], 20⟩ :=
    by decide
  have hpass1 : runPass isHighPriorityFile false ⟨[], 0⟩ c4Files =
      ⟨[("src/index.ts", "0123456789"), ("app.config.js", "abcdefghij")], 20⟩ :=
    by
    show runPass isHighPriorityFile false ⟨[], 0⟩
      (("src/index.ts", "0123456789") :: ("style.css", bigCss) ::
        ("app.config.js", "abcdefghij") :: []) =
      ⟨[("src/index.ts", "0123456789"), ("app.config.js", "abcdefghij")], 20⟩
    unfold runPass
    rw [List.foldl_cons, p1a, List.foldl_cons, p1b, List.foldl_cons, p1c,
      List.foldl_nil]
  have p2a : passStep isSourceCodeFile true
      ⟨[("src/index.ts", "0123456789"), ("app.config.js", "abcdefghij")], 20⟩
      ("src/index.ts", "0123456789") =
      ⟨[("src/index.ts", "0123456789"), ("app.config.js", "abcdefghij")], 20⟩ :=
    by decide
  have p2b : passStep isSourceCodeFile true
      ⟨[("src/index.ts", "0123456789"), ("app.config.js", "abcdefghij")], 20⟩
      ("style.css", bigCss) =
      ⟨[("src/index.ts", "0123456789"), ("app.config.js", "abcdefghij")], 20⟩ :=
    passStep_no_match _ _ _ _ (by decide) (by decide)
  have p2c : passStep isSourceCodeFile true
      ⟨[("src/index.ts", "0123456789"), ("app.config.js", "abcdefghij")], 20⟩
      ("app.config.js", "abcdefghij") =
      ⟨[("src/index.ts", "0123456789"), ("app.config.js", "abcdefghij")], 20⟩ :=
    by decide
  have hpass2 : runPass isSourceCodeFile true
      ⟨[("src/index.ts", "0123456789"), ("app.config.js", "abcdefghij")], 20⟩
      c4Files =
      ⟨[("src/index.ts", "0123456789"), ("app.config.js", "abcdefghij")], 20⟩ :=
    by
    show runPass isSourceCodeFile true
      ⟨[("src/index.ts", "0123456789"), ("app.config.js", "abcdefghij")], 20⟩
      (("src/index.ts", "0123456789") :: ("style.css", bigCss) ::
        ("app.config.js", "abcdefghij") :: []) =
      ⟨[("src/index.ts", "0123456789"), ("app.config.js", "abcdefghij")], 20⟩
    unfold runPass
    rw [List.foldl_cons, p2a, List.foldl_cons, p2b, List.foldl_cons, p2c,
      List.foldl_nil]
  have p3a : passStep isUsefulFile true
      ⟨[("src/index.ts", "0123456789"), ("app.config.js", "abcdefghij")], 20⟩
      ("src/index.ts", "0123456789") =
      ⟨[("src/index.ts", "0123456789"), ("app.config.js", "abcdefghij")], 20⟩ :=
    by decide
  have p3b : passStep isUsefulFile true
      ⟨[("src/index.ts", "0123456789"), ("app.config.js", "abcdefghij")], 20⟩
      ("style.css", bigCss) =
      ⟨[("src/index.ts", "0123456789"), ("app.config.js", "abcdefghij")], 20⟩ :=
    by
    apply passStep_over
    · decide
    · rw [hp2]
      decide
  have p3c : passStep isUsefulFile true
      ⟨[("src/index.ts", "0123456789"), ("app.config.js", "abcdefghij")], 20⟩
      ("app.config.js", "abcdefghij") =
      ⟨[("src/index.ts", "0123456789"), ("app.config.js", "abcdefghij")], 20⟩ :=
    by decide
  have hpass3 : runPass isUsefulFile true
      ⟨[("src/index.ts", "0123456789"), ("app.config.js", "abcdefghij")], 20⟩
      c4Files =
      ⟨[("src/index.ts", "0123456789"), ("app.config.js", "abcdefghij")], 20⟩ :=
    by
    show runPass isUsefulFile true
      ⟨[("src/index.ts", "0123456789"), ("app.config.js", "abcdefghij")], 20⟩
      (("src/index.ts", "0123456789") :: ("style.css", bigCss) ::
        ("app.config.js", "abcdefghij") :: []) =
      ⟨[("src/index.ts", "0123456789"), ("app.config.js", "abcdefghij")], 20⟩
    unfold runPass
    rw [List.foldl_cons, p3a, List.foldl_cons, p3b, List.foldl_cons, p3c,
      List.foldl_nil]
  have hsel : selectCodeFiles c4Files =
      ⟨[("src/index.ts", "0123456789"), ("app.config.js", "abcdefghij")], 20⟩ :=
    by
    unfold selectCodeFiles
    rw [hpass1, hpass2, hpass3]
  refine ⟨?_, ?_, ?_⟩
  · have hsum : totalContentOf c4Files =
        strLen ("src/index.ts", "0123456789").2 +
          (strLen ("style.css", bigCss).2 +
            (strLen ("app.config.js", "abcdefghij").2 +
              totalContentOf ([] : List (String × String)))) := by
      show totalContentOf (("src/index.ts", "0123456789") ::
        ("style.css", bigCss) :: ("app.config.js", "abcdefghij") :: []) = _
      rw [totalContentOf_cons, totalContentOf_cons, totalContentOf_cons]
    have hq1 : strLen ("src/index.ts", "0123456789").2 = 10 := by decide
    have hq3 : strLen ("app.config.js", "abcdefghij").2 = 10 := by decide
    have hq0 : totalContentOf ([] : List (String × String)) = 0 := rfl
    rw [hsum, hq1, hp2, hq3, hq0]
    decide
  · rw [hsel]
    rfl
  · rw [hsel]
    decide

/-- Claim C4 amended.  The prompt budget is enforced by whole-file
selection, not truncation: for every extracted file list the running
content total of the three passes stays strictly below the fixed
600000-character ceiling, and every included path-content entry is one of
the extracted files, byte for byte — no file is split and no truncation
marker is appended anywhere. -/
theorem c4_whole_file_selection (files : List (String × String)) :
    (selectCodeFiles files).total < MAX_CONTENT_LENGTH ∧
    ((selectCodeFiles files).codeFiles.all
      (fun e => decide (e ∈ files))) = true := by
  have h1 := runPass_inv isHighPriorityFile false files files ⟨[], 0⟩
    (by norm_num [MAX_CONTENT_LENGTH])
    (by intro e he; simp at he)
    (fun f hf => hf)
  have h2 := runPass_inv isSourceCodeFile true files files _ h1.1 h1.2
    (fun f hf => hf)
  have h3 := runPass_inv isUsefulFile true files files _ h2.1 h2.2
    (fun f hf => hf)
  refine ⟨h3.1, ?_⟩
  rw [List.all_eq_true]
  intro e he
  exact decide_eq_true (h3.2 e he)

/-- Claim C6 counterexample.  The claim states that when a JSON-like span
was found but parsing the extracted span also fails, the per-question
regex salvage runs.  At this concrete response text the span is found and
fails to parse, yet the result is the empty answers object: every question
falls to the no-answer default of the record readout, not to the regex
capture (which would have produced the spans Alpha-brace and Beta) and not
to the unable-to-extract placeholder. -/
theorem c6_counterexample :
    jsonObjParse "1. Alpha \x7boops\x7d 2. Beta" = none ∧
    findJsonSpan "1. Alpha \x7boops\x7d 2. Beta" = some "\x7boops\x7d" ∧
    jsonObjParse "\x7boops\x7d" = none ∧
    salvageAnswers 2 "1. Alpha \x7boops\x7d 2. Beta" =
      [("1", "Alpha \x7boops\x7d"), ("2", "Beta")] ∧
    parseAnswers "1. Alpha \x7boops\x7d 2. Beta" 2 = [] ∧
    answerFor (parseAnswers "1. Alpha \x7boops\x7d 2. Beta" 2) 0 =
      "No answer provided for question 1" ∧
    ("No answer provided for question 1" : String) ≠ "Alpha \x7boops\x7d" := by
  decide

/-- Claim C6 amended.  When direct JSON parsing fails, a JSON-like span is
found, and parsing the span fails too, the answers object is left empty
and every question receives the no-answer default of the record readout;
the per-question regex salvage with its unable-to-extract placeholder runs
only in the branch where no JSON-like span was found at all. -/
theorem c6_empty_on_span_failure (text sp : String) (questionCount : Nat)
    (h1 : jsonObjParse text = none)
    (h2 : findJsonSpan text = some sp)
    (h3 : jsonObjParse sp = none) :
    parseAnswers text questionCount = [] ∧
    ((List.range questionCount).all (fun i =>
      answerFor (parseAnswers text questionCount) i ==
        "No answer provided for question " ++ strNat (i + 1))) = true := by
  have hp : parseAnswers text questionCount = [] := by
    unfold parseAnswers
    rw [h1, h2]
    dsimp only
    rw [h3]
  refine ⟨hp, ?_⟩
  rw [hp, List.all_eq_true]
  intro i _
  simp [answerFor, lookupFile, List.find?]

/-- Witness for claim C6 at a concrete unparseable response holding a
JSON-like span. -/
theorem c6_empty_on_span_failure_witness :
    jsonObjParse "x \x7bnot json\x7d y" = none ∧
    findJsonSpan "x \x7bnot json\x7d y" = some "\x7bnot json\x7d" ∧
    jsonObjParse "\x7bnot json\x7d" = none ∧
    (parseAnswers "x \x7bnot json\x7d y" 2 = [] ∧
      ((List.range 2).all (fun i =>
        answerFor (parseAnswers "x \x7bnot json\x7d y" 2) i ==
          "No answer provided for question " ++ strNat (i + 1))) = true) :=
  ⟨by decide, by decide, by decide,
    c6_empty_on_span_failure "x \x7bnot json\x7d y" "\x7bnot json\x7d" 2
      (by decide) (by decide) (by decide)⟩

/-- Claim C7.  In the interview loop a case-insensitive exit typed at
question k (with no earlier exit) ends the loop at once: the recorded
results are exactly those of the first k questions, a case-insensitive
skip among them records nothing, and every entry of the summary comes from
a question before k whose input was neither skip nor exit. -/
theorem c7_exit_stops_interview
    (evalF : InterviewQuestion → String → AnswerEvaluation)
    (pairs : List (InterviewQuestion × String)) (k : Nat)
    (h1 : ∀ p ∈ pairs.take k, strLower p.2 ≠ "exit")
    (h2 : ∃ p, pairs.get? k = some p ∧ strLower p.2 = "exit") :
    interviewResults evalF pairs = interviewResults evalF (pairs.take k) ∧
    ((interviewResults evalF pairs).all (fun kv =>
      (pairs.take k).any (fun p =>
        p.1.id == kv.1 && !(strLower p.2 == "skip") &&
          !(strLower p.2 == "exit")))) = true := by
  have heq : interviewResults evalF pairs =
      interviewResults evalF (pairs.take k) :=
    runLoop_take evalF pairs k [] h1 h2
  refine ⟨heq, ?_⟩
  rw [heq, List.all_eq_true]
  intro kv hkv
  rcases runLoop_mem evalF (pairs.take k) [] kv hkv with h | ⟨p, hp, hid, hsk, hex⟩
  · simp at h
  · rw [List.any_eq_true]
    refine ⟨p, hp, ?_⟩
    simp [hid, hsk, hex]

/-- Witness for claim C7: a three-question interview with exit typed at
the second question. -/
theorem c7_exit_stops_interview_witness :
    (∀ p ∈ ([(mkQuestionRecord "r" "n" 0 "Q one?" "E1", "an answer"),
      (mkQuestionRecord "r" "n" 1 "Q two?" "E2", "Exit"),
      (mkQuestionRecord "r" "n" 2 "Q three?" "E3", "later")] :
        List (InterviewQuestion × String)).take 1, strLower p.2 ≠ "exit") ∧
    (interviewResults fallbackEvaluation
      [(mkQuestionRecord "r" "n" 0 "Q one?" "E1", "an answer"),
       (mkQuestionRecord "r" "n" 1 "Q two?" "E2", "Exit"),
       (mkQuestionRecord "r" "n" 2 "Q three?" "E3", "later")] =
      interviewResults fallbackEvaluation
        ([(mkQuestionRecord "r" "n" 0 "Q one?" "E1", "an answer"),
          (mkQuestionRecord "r" "n" 1 "Q two?" "E2", "Exit"),
          (mkQuestionRecord "r" "n" 2 "Q three?" "E3", "later")].take 1) ∧
      ((interviewResults fallbackEvaluation
        [(mkQuestionRecord "r" "n" 0 "Q one?" "E1", "an answer"),
         (mkQuestionRecord "r" "n" 1 "Q two?" "E2", "Exit"),
         (mkQuestionRecord "r" "n" 2 "Q three?" "E3", "later")]).all (fun kv =>
        (([(mkQuestionRecord "r" "n" 0 "Q one?" "E1", "an answer"),
           (mkQuestionRecord "r" "n" 1 "Q two?" "E2", "Exit"),
           (mkQuestionRecord "r" "n" 2 "Q three?" "E3", "later")] :
             List (InterviewQuestion × String)).take 1).any (fun p =>
          p.1.id == kv.1 && !(strLower p.2 == "skip") &&
            !(strLower p.2 == "exit")))) = true) :=
  ⟨by decide,
    c7_exit_stops_interview fallbackEvaluation
      [(mkQuestionRecord "r" "n" 0 "Q one?" "E1", "an answer"),
       (mkQuestionRecord "r" "n" 1 "Q two?" "E2", "Exit"),
       (mkQuestionRecord "r" "n" 2 "Q three?" "E3", "later")] 1
      (by decide)
      ⟨(mkQuestionRecord "r" "n" 1 "Q two?" "E2", "Exit"), rfl, by decide⟩⟩

/-- Claim C8.  For every question and every answer, the heuristic fallback
evaluator built when the evaluation API call fails returns a score in the
closed interval from 1 to 10; the universal quantification covers in
particular expected answers yielding no keyword longer than five
characters, where the source compares against NaN and leaves the
length-based score unchanged. -/
theorem c8_fallback_score_range (q : InterviewQuestion) (answer : String) :
    1 ≤ (fallbackEvaluation q answer).score ∧
      (fallbackEvaluation q answer).score ≤ 10 :=
  heuristicScore_bounds _ _ _

/-- Claim C9.  When the rubric scanner returns an empty question list, the
caller answerRubricQuestionsWithGemini, not the scanner, substitutes
exactly the three fixed default questions before building the prompt. -/
theorem c9_caller_default_questions (rubric : String)
    (h : extractQuestionsFromRubric rubric = []) :
    effectiveRubricQuestions rubric =
      ["Explain the architecture of this application",
       "How would you refactor problematic areas?",
       "How would you improve the error handling?"] := by
  unfold effectiveRubricQuestions
  rw [h]
  rfl

/-- Witness for claim C9 at a rubric without any question line. -/
theorem c9_caller_default_questions_witness :
    extractQuestionsFromRubric "just prose, no list markers" = [] ∧
    effectiveRubricQuestions "just prose, no list markers" =
      ["Explain the architecture of this application",
       "How would you refactor problematic areas?",
       "How would you improve the error handling?"] :=
  ⟨by decide, c9_caller_default_questions _ (by decide)⟩

/-- Claim C10.  When no argument after the node and script entries starts
with the https scheme and no repo-list argument names an existing file,
the program reports no error and silently substitutes the single fixed
default repository url, which the pipeline then runs on. -/
theorem c10_default_repository (argv : List String)
    (fileExists : String → Bool) (fileContent : String → Option String)
    (h1 : ∀ a ∈ argv, (strEnds a ".repos" || strEnds a ".list") = true →
      fileExists a = false)
    (h2 : ∀ a ∈ argv.drop 2, strStarts a "https://" = false) :
    computeRepoUrls argv fileExists fileContent = ([defaultRepoUrl], false) := by
  unfold computeRepoUrls
  have hfilter :
      (argv.drop 2).filter (fun a => strStarts a "https://") = [] := by
    rw [List.filter_eq_nil_iff]
    intro a ha
    rw [h2 a ha]
    simp
  cases hfind : argv.find? (fun a => strEnds a ".repos" || strEnds a ".list")
    with
  | none => simp [hfind, hfilter]
  | some f =>
    have hmem : f ∈ argv := List.mem_of_find?_eq_some hfind
    have hpred := List.find?_some hfind
    have hex : fileExists f = false := h1 f hmem (by simpa using hpred)
    simp [hfind, hex, hfilter]

/-- Witness for claim C10 at an argv with no url argument and no existing
repo-list file. -/
theorem c10_default_repository_witness :
    computeRepoUrls ["node", "script", "rubric.md"] (fun _ => false)
      (fun _ => none) = ([defaultRepoUrl], false) :=
  c10_default_repository ["node", "script", "rubric.md"] (fun _ => false)
    (fun _ => none) (by decide) (by decide)

end RepoPrep
